import Mathlib

/-!
Shallow embedding of the "Board API" posts service (`src/main.rs`,
entity `entities/post.rs`).  The database is modelled as a list of rows
(`Store`); each HTTP handler of the `Api` impl becomes a pure function on
that state.  Timestamps (`DateTimeWithTimeZone`) are opaque to every
handler, so they are modelled as integers.
-/

namespace Board

/-- The `Model` struct of `entities/post.rs`: one row of the `posts` table.
`id : i64`, `author_id : Option<i64>` become `Int`; the two timestamp
columns are opaque values. -/
structure Post where
  id : Int
  title : String
  body : String
  author_id : Option Int
  is_pinned : Bool
  created_at : Int
  updated_at : Int
deriving Repr, DecidableEq

/-- Request body of the create handler (`struct PostCreate`). -/
structure PostCreate where
  title : String
  body : String
deriving Repr, DecidableEq

/-- Request body of the update handler (`struct PostUpdate`): both fields
optional. -/
structure PostUpdate where
  title : Option String
  body : Option String
deriving Repr, DecidableEq

/-- The two externally visible error kinds produced by the handlers:
`not_found` (404) and the internal 500 produced by `anyhow_to_poem`.
The string is the message passed to `poem::Error::from_string`. -/
inductive ApiError where
  | notFound : String → ApiError
  | internal : String → ApiError
deriving Repr, DecidableEq

/-- The persisted relation: the rows of the `posts` table. -/
abbrev Store := List Post

/-- The database invariant: `id` is the primary key, so the stored ids are
pairwise distinct. -/
abbrev Store.ok (st : Store) : Prop := (st.map Post.id).Nodup

/-- `page.unwrap_or(1).max(1) - 1` from `list_posts`: the zero-based
internal page index.  `u64` subtraction cannot underflow here because of
the `.max(1)` guard, so `Nat` subtraction is exact. -/
def pageIndex (page : Option Nat) : Nat :=
  max (page.getD 1) 1 - 1

/-- The same computation with `u64` subtraction modelled as checked
subtraction: `none` would mean underflow. -/
def pageIndexChecked (page : Option Nat) : Option Nat :=
  let v := max (page.getD 1) 1
  if 1 ≤ v then some (v - 1) else none

/-- `per_page.unwrap_or(20).clamp(1, 100)` from `list_posts`. -/
def perPageOf (per_page : Option Nat) : Nat :=
  min (max (per_page.getD 20) 1) 100

/-- The `ORDER BY is_pinned DESC, id DESC` comparison: `a` may appear
before `b`. -/
def postOrder (a b : Post) : Prop :=
  b.is_pinned < a.is_pinned ∨ (a.is_pinned = b.is_pinned ∧ b.id ≤ a.id)

instance : DecidableRel postOrder := fun a b =>
  inferInstanceAs (Decidable
    (b.is_pinned < a.is_pinned ∨ (a.is_pinned = b.is_pinned ∧ b.id ≤ a.id)))

instance : IsTotal Post postOrder where
  total a b := by
    rcases lt_trichotomy a.is_pinned b.is_pinned with h | h | h
    · exact Or.inr (Or.inl h)
    · rcases le_total b.id a.id with hid | hid
      · exact Or.inl (Or.inr ⟨h, hid⟩)
      · exact Or.inr (Or.inr ⟨h.symm, hid⟩)
    · exact Or.inl (Or.inl h)

instance : IsTrans Post postOrder where
  trans a b c hab hbc := by
    rcases hab with h | ⟨h1, h2⟩ <;> rcases hbc with h' | ⟨h1', h2'⟩
    · exact Or.inl (lt_trans h' h)
    · exact Or.inl (h1' ▸ h)
    · exact Or.inl (h1.symm ▸ h')
    · exact Or.inr ⟨h1.trans h1', le_trans h2' h2⟩

/-- The full ordered relation the paginator walks:
`Post::find().order_by_desc(IsPinned).order_by_desc(Id)`. -/
def orderedRelation (st : Store) : List Post :=
  List.insertionSort postOrder st

/-- `list_posts`: page/per_page normalisation, then
`paginate(per).fetch_page(page)`, i.e. `OFFSET page*per LIMIT per` over
the ordered relation. -/
def list_posts (st : Store) (page per_page : Option Nat) : List Post :=
  ((orderedRelation st).drop (pageIndex page * perPageOf per_page)).take
    (perPageOf per_page)

/-- `get_post`: `Post::find_by_id(id).one(db)`, then `not_found` when the
row is absent. -/
def get_post (st : Store) (id : Int) : Except ApiError Post :=
  match st.find? (fun p => p.id == id) with
  | some p => .ok p
  | none => .error (.notFound "post not found")

/-- `create_post`: an `ActiveModel` with only `title` and `body` set;
`id` is generated by the store and the remaining columns take store-side
defaults (`author_id` null, `is_pinned` false, timestamps set on write).
Returns the created row and the new store. -/
def create_post (st : Store) (input : PostCreate) (newId : Int) (now : Int) :
    Post × Store :=
  let p : Post :=
    { id := newId, title := input.title, body := input.body,
      author_id := none, is_pinned := false,
      created_at := now, updated_at := now }
  (p, st ++ [p])

/-- The partial merge of `update_post`: the two `if let Some(...)` arms.
Only a present `title`/`body` replaces the stored field; everything else
is untouched. -/
def mergePost (p : Post) (input : PostUpdate) : Post :=
  { p with title := input.title.getD p.title,
           body := input.body.getD p.body }

/-- `update_post`: find the row (`not_found` when absent, nothing
written), otherwise merge and write the merged row back under its id.
Returns the handler result together with the resulting store. -/
def update_post (st : Store) (id : Int) (input : PostUpdate) :
    Except ApiError Post × Store :=
  match st.find? (fun p => p.id == id) with
  | none => (.error (.notFound "post not found"), st)
  | some p =>
    let p' := mergePost p input
    (.ok p', st.map (fun q => if q.id == id then p' else q))

/-- `delete_post`: `delete_by_id(id).exec(db)` first, then `not_found`
exactly when `rows_affected == 0`.  Returns the handler result together
with the resulting store. -/
def delete_post (st : Store) (id : Int) : Except ApiError Unit × Store :=
  let remaining := st.filter (fun p => !(p.id == id))
  let rows_affected := st.countP (fun p => p.id == id)
  if rows_affected == 0 then (.error (.notFound "post not found"), remaining)
  else (.ok (), remaining)

/-- Two concrete unpinned rows used as evaluation witnesses. -/
def examplePost1 : Post :=
  { id := 1, title := "first", body := "first body", author_id := none,
    is_pinned := false, created_at := 0, updated_at := 0 }

def examplePost2 : Post :=
  { id := 2, title := "second", body := "second body", author_id := none,
    is_pinned := false, created_at := 0, updated_at := 0 }

/-! ### Helper lemmas -/

theorem orderedRelation_sorted (st : Store) :
    (orderedRelation st).Pairwise postOrder :=
  List.sorted_insertionSort postOrder st

theorem orderedRelation_perm (st : Store) : (orderedRelation st).Perm st :=
  List.perm_insertionSort postOrder st

theorem orderedRelation_length (st : Store) :
    (orderedRelation st).length = st.length :=
  (orderedRelation_perm st).length_eq

theorem orderedRelation_nodup_ids (st : Store) (hok : st.ok) :
    ((orderedRelation st).map Post.id).Nodup :=
  (((orderedRelation_perm st).map Post.id).nodup_iff).mpr hok

/-- With distinct ids, `find_by_id` returns exactly the stored row whose
id matches. -/
theorem find_by_id_eq (st : Store) (id : Int) (hok : st.ok) {p : Post}
    (hmem : p ∈ st) (hid : p.id = id) :
    st.find? (fun q => q.id == id) = some p := by
  have hsome : (st.find? (fun q => q.id == id)).isSome := by
    exact List.find?_isSome.mpr ⟨p, hmem, by simp [hid]⟩
  obtain ⟨q, hq⟩ := Option.isSome_iff_exists.mp hsome
  have hqmem : q ∈ st := List.mem_of_find?_eq_some hq
  have hqid : q.id = id := by simpa using List.find?_some hq
  have : q = p := List.inj_on_of_nodup_map hok hqmem hmem (hqid.trans hid.symm)
  rw [hq, this]

/-- Concatenating consecutive `take per` chunks of size `per` rebuilds the
list once the chunk count covers its length. -/
theorem flatMap_range_chunks {α : Type} (per : Nat) :
    ∀ (N : Nat) (l : List α), l.length ≤ N * per →
      (List.range N).flatMap (fun i => (l.drop (i * per)).take per) = l := by
  intro N
  induction N with
  | zero =>
    intro l h
    simp only [Nat.zero_mul, Nat.le_zero] at h
    simp [List.length_eq_zero.mp h]
  | succ n ih =>
    intro l h
    rw [List.range_succ_eq_map, List.flatMap_cons, List.flatMap_map]
    have hfun : (fun i => ((l.drop (Nat.succ i * per)).take per))
        = (fun i => (((l.drop per).drop (i * per)).take per)) := by
      funext i
      rw [List.drop_drop, Nat.succ_mul, Nat.add_comm]
    have hmul : (n + 1) * per = n * per + per := by ring
    rw [hfun, ih (l.drop per) (by rw [List.length_drop]; omega)]
    simp [List.take_append_drop per l]

/-! ### Claim theorems -/

/-- C1: the `page` parameter defaults to 1 when absent and is floored at 1,
the zero-based internal page index is `max(page,1) - 1`, `per_page`
defaults to 20 and is clamped into `[1,100]`, and the returned sequence
has length at most the clamped `per_page`. -/
theorem list_posts_pagination_params (st : Store) (page per_page : Option Nat) :
    pageIndex none = 0 ∧
    pageIndex page = max (page.getD 1) 1 - 1 ∧
    perPageOf none = 20 ∧
    1 ≤ perPageOf per_page ∧ perPageOf per_page ≤ 100 ∧
    (list_posts st page per_page).length ≤ perPageOf per_page := by
  refine ⟨rfl, rfl, rfl, ?_, ?_, ?_⟩
  · unfold perPageOf; omega
  · unfold perPageOf; omega
  · exact List.length_take_le _ _

/-- C9: on a store with exactly the unpinned posts of ids 1 and 2, a list
request with `page = 2` and `per_page = 1` returns exactly the post with
id 1. -/
theorem list_posts_two_posts_page2 :
    list_posts [examplePost1, examplePost2] (some 2) (some 1) =
      [examplePost1] := by
  decide

/-- C10: `page.unwrap_or(1).max(1) - 1` never underflows: checked `u64`
subtraction always succeeds, yielding 0 for page inputs absent, 0 and 1,
and `page - 1` for any page ≥ 1. -/
theorem page_index_no_underflow (page : Option Nat) :
    pageIndexChecked page = some (pageIndex page) ∧
    pageIndex none = 0 ∧ pageIndex (some 0) = 0 ∧ pageIndex (some 1) = 0 ∧
    (∀ n : Nat, 1 ≤ n → pageIndex (some n) = n - 1) := by
  refine ⟨?_, rfl, rfl, rfl, ?_⟩
  · unfold pageIndexChecked pageIndex
    rw [if_pos (le_max_right _ 1)]
  · intro n hn
    unfold pageIndex
    simp only [Option.getD_some]
    omega

/-- Witness for C10 at page = 5. -/
theorem page_index_no_underflow_witness :
    pageIndexChecked (some 5) = some (pageIndex (some 5)) ∧
    pageIndex (some 5) = 4 :=
  ⟨(page_index_no_underflow (some 5)).1,
    (page_index_no_underflow (some 5)).2.2.2.2 5 (by decide)⟩

/-- C2: any two posts A before B in a list response satisfy
`A.is_pinned > B.is_pinned` or
(`A.is_pinned = B.is_pinned` and `A.id > B.id`), given the primary-key
invariant on the store. -/
theorem list_posts_ordering (st : Store) (hok : st.ok)
    (page per_page : Option Nat) :
    (list_posts st page per_page).Pairwise
      (fun a b => b.is_pinned < a.is_pinned ∨
        (a.is_pinned = b.is_pinned ∧ b.id < a.id)) := by
  have hne : (orderedRelation st).Pairwise (fun a b => a.id ≠ b.id) :=
    List.pairwise_map.mp (orderedRelation_nodup_ids st hok)
  have hstrict : (orderedRelation st).Pairwise
      (fun a b => b.is_pinned < a.is_pinned ∨
        (a.is_pinned = b.is_pinned ∧ b.id < a.id)) := by
    refine ((orderedRelation_sorted st).and hne).imp ?_
    rintro a b ⟨hab | ⟨h1, h2⟩, hne'⟩
    · exact Or.inl hab
    · exact Or.inr ⟨h1, lt_of_le_of_ne h2 hne'.symm⟩
  exact List.Pairwise.sublist
    ((List.take_sublist _ _).trans (List.drop_sublist _ _)) hstrict

/-- Witness for C2 on the two-post store. -/
theorem list_posts_ordering_witness :
    (list_posts [examplePost1, examplePost2] none none).Pairwise
      (fun a b => b.is_pinned < a.is_pinned ∨
        (a.is_pinned = b.is_pinned ∧ b.id < a.id)) :=
  list_posts_ordering [examplePost1, examplePost2] (by decide) none none

/-- C3: for a fixed store, the concatenation of pages `1..N` (once
`N * per_page` covers the relation) is exactly the full ordered relation,
with no gaps and no overlaps; a page past the end returns `[]` rather
than an error. -/
theorem list_posts_pages_partition (st : Store) (per_page : Option Nat)
    (N : Nat) (page : Option Nat)
    (hN : st.length ≤ N * perPageOf per_page)
    (hpast : st.length ≤ pageIndex page * perPageOf per_page) :
    (List.range N).flatMap (fun i => list_posts st (some (i + 1)) per_page) =
      orderedRelation st ∧
    list_posts st page per_page = [] := by
  constructor
  · have hidx : ∀ i : Nat, pageIndex (some (i + 1)) = i := by
      intro i; unfold pageIndex; simp only [Option.getD_some]; omega
    have hfun : (fun i => list_posts st (some (i + 1)) per_page)
        = (fun i => ((orderedRelation st).drop (i * perPageOf per_page)).take
            (perPageOf per_page)) := by
      funext i; unfold list_posts; rw [hidx]
    rw [hfun]
    exact flatMap_range_chunks (perPageOf per_page) N (orderedRelation st)
      (by rw [orderedRelation_length]; exact hN)
  · unfold list_posts
    rw [List.drop_eq_nil_of_le (by rw [orderedRelation_length]; exact hpast)]
    simp

/-- Witness for C3: two posts, per_page 1, pages 1..2, and page 5 empty. -/
theorem list_posts_pages_partition_witness :
    (List.range 2).flatMap
        (fun i => list_posts [examplePost1, examplePost2] (some (i + 1)) (some 1)) =
      orderedRelation [examplePost1, examplePost2] ∧
    list_posts [examplePost1, examplePost2] (some 5) (some 1) = [] :=
  list_posts_pages_partition [examplePost1, examplePost2] (some 1) 2 (some 5)
    (by decide) (by decide)

/-- C4: the get handler returns exactly the stored post with the
requested id when one exists, a NotFound error when none does, and never
a post with a different id. -/
theorem get_post_contract (st : Store) (id : Int) :
    (∀ p, get_post st id = .ok p → p ∈ st ∧ p.id = id) ∧
    ((∀ p ∈ st, p.id ≠ id) →
      get_post st id = .error (.notFound "post not found")) ∧
    (st.ok → ∀ p ∈ st, p.id = id → get_post st id = .ok p) := by
  refine ⟨?_, ?_, ?_⟩
  · intro p hp
    unfold get_post at hp
    rcases hfind : st.find? (fun q => q.id == id) with _ | q
    · rw [hfind] at hp
      exact absurd hp (by simp)
    · rw [hfind] at hp
      have hqp : q = p := by simpa using hp
      subst hqp
      exact ⟨List.mem_of_find?_eq_some hfind, by simpa using List.find?_some hfind⟩
  · intro habs
    unfold get_post
    rw [List.find?_eq_none.mpr (by intro x hx; simpa using habs x hx)]
  · intro hok p hmem hid
    unfold get_post
    rw [find_by_id_eq st id hok hmem hid]

/-- Witness for C4: a hit on id 1 and a miss on id 99. -/
theorem get_post_contract_witness :
    get_post [examplePost1] 1 = .ok examplePost1 ∧
    get_post [examplePost1] 99 = .error (.notFound "post not found") :=
  ⟨(get_post_contract [examplePost1] 1).2.2 (by decide) examplePost1
      (List.mem_singleton.mpr rfl) rfl,
    (get_post_contract [examplePost1] 99).2.1 (by decide)⟩

/-- C5: updating an existing post applies a field-level partial merge — a
present title/body replaces the stored one, an absent field keeps its
stored value, and `id`, `is_pinned`, `author_id` are never changed — and
the handler returns the post-merge persisted row. -/
theorem update_post_partial_merge (st : Store) (id : Int)
    (input : PostUpdate) (p : Post) (hok : st.ok) (hmem : p ∈ st)
    (hid : p.id = id) :
    update_post st id input =
      (.ok (mergePost p input),
        st.map (fun q => if q.id == id then mergePost p input else q)) ∧
    (∀ t, input.title = some t → (mergePost p input).title = t) ∧
    (input.title = none → (mergePost p input).title = p.title) ∧
    (∀ b, input.body = some b → (mergePost p input).body = b) ∧
    (input.body = none → (mergePost p input).body = p.body) ∧
    (mergePost p input).id = p.id ∧
    (mergePost p input).is_pinned = p.is_pinned ∧
    (mergePost p input).author_id = p.author_id := by
  refine ⟨?_, ?_, ?_, ?_, ?_, rfl, rfl, rfl⟩
  · unfold update_post
    rw [find_by_id_eq st id hok hmem hid]
  · intro t ht; simp [mergePost, ht]
  · intro ht; simp [mergePost, ht]
  · intro b hb; simp [mergePost, hb]
  · intro hb; simp [mergePost, hb]

/-- Witness for C5: update with only a new title changes the title and
keeps the body; pin status and author are untouched. -/
theorem update_post_partial_merge_witness :
    update_post [examplePost1] 1 ⟨some "New", none⟩ =
      (.ok (mergePost examplePost1 ⟨some "New", none⟩),
        [examplePost1].map (fun q =>
          if q.id == 1 then mergePost examplePost1 ⟨some "New", none⟩ else q)) ∧
    (mergePost examplePost1 ⟨some "New", none⟩).title = "New" ∧
    (mergePost examplePost1 ⟨some "New", none⟩).body = examplePost1.body ∧
    (mergePost examplePost1 ⟨some "New", none⟩).is_pinned =
      examplePost1.is_pinned :=
  have h := update_post_partial_merge [examplePost1] 1 ⟨some "New", none⟩
    examplePost1 (by decide) (List.mem_singleton.mpr rfl) rfl
  ⟨h.1, h.2.1 "New" rfl, h.2.2.2.2.1 rfl, h.2.2.2.2.2.2.1⟩

/-- C6: updating an id with no matching row yields NotFound and leaves
the store unchanged — no write is issued. -/
theorem update_post_not_found (st : Store) (id : Int) (input : PostUpdate)
    (habs : ∀ p ∈ st, p.id ≠ id) :
    update_post st id input = (.error (.notFound "post not found"), st) := by
  unfold update_post
  rw [List.find?_eq_none.mpr (by intro x hx; simpa using habs x hx)]

/-- Witness for C6: updating absent id 99 is NotFound and keeps the store. -/
theorem update_post_not_found_witness :
    update_post [examplePost1] 99 ⟨some "New", none⟩ =
      (.error (.notFound "post not found"), [examplePost1]) :=
  update_post_not_found [examplePost1] 99 ⟨some "New", none⟩ (by decide)

/-- C7: the delete handler attempts the deletion first and reports
NotFound exactly when zero rows were affected; a first delete on an
existing id succeeds with no body and a second delete of the same id is
NotFound. -/
theorem delete_post_contract (st : Store) (id : Int) :
    ((delete_post st id).1 = .error (.notFound "post not found") ↔
      st.countP (fun p => p.id == id) = 0) ∧
    (delete_post st id).2 = st.filter (fun p => !(p.id == id)) ∧
    (∀ p ∈ st, p.id = id →
      (delete_post st id).1 = .ok () ∧
      (delete_post (delete_post st id).2 id).1 =
        .error (.notFound "post not found")) := by
  have hsnd : (delete_post st id).2 = st.filter (fun p => !(p.id == id)) := by
    simp only [delete_post]
    split <;> rfl
  have hzero : (st.filter (fun p => !(p.id == id))).countP
      (fun p => p.id == id) = 0 := by
    rw [List.countP_eq_zero]
    intro a ha
    simpa using (List.mem_filter.mp ha).2
  refine ⟨?_, hsnd, ?_⟩
  · simp only [delete_post]
    split
    · next h =>
      simp only [beq_iff_eq] at h
      exact ⟨fun _ => h, fun _ => rfl⟩
    · next h =>
      simp only [beq_iff_eq] at h
      exact ⟨fun hc => absurd hc (by simp), fun h0 => absurd h0 h⟩
  · intro p hmem hid
    have hcnt : st.countP (fun q => q.id == id) ≠ 0 := by
      intro h0
      exact absurd (List.countP_eq_zero.mp h0 p hmem) (by simp [hid])
    constructor
    · simp only [delete_post]
      rw [if_neg (by simpa using hcnt)]
    · rw [hsnd]
      simp only [delete_post]
      rw [if_pos (beq_iff_eq.mpr hzero)]

/-- Witness for C7: deleting id 1 succeeds once, then is NotFound. -/
theorem delete_post_contract_witness :
    (delete_post [examplePost1] 1).1 = .ok () ∧
    (delete_post (delete_post [examplePost1] 1).2 1).1 =
      .error (.notFound "post not found") :=
  (delete_post_contract [examplePost1] 1).2.2 examplePost1
    (List.mem_singleton.mpr rfl) rfl

/-- C8: create-then-get round trip: creating with a fresh store-assigned
id then fetching that id yields the created row, whose title and body are
the input and whose `is_pinned`, `author_id`, timestamps are the
store-side defaults (`false`, `none`, write time). -/
theorem create_then_get_roundtrip (st : Store) (title bod : String)
    (newId now : Int) (hfresh : ∀ p ∈ st, p.id ≠ newId) :
    get_post (create_post st ⟨title, bod⟩ newId now).2 newId =
      .ok (create_post st ⟨title, bod⟩ newId now).1 ∧
    (create_post st ⟨title, bod⟩ newId now).1.title = title ∧
    (create_post st ⟨title, bod⟩ newId now).1.body = bod ∧
    (create_post st ⟨title, bod⟩ newId now).1.is_pinned = false ∧
    (create_post st ⟨title, bod⟩ newId now).1.author_id = none ∧
    (create_post st ⟨title, bod⟩ newId now).1.id = newId ∧
    (create_post st ⟨title, bod⟩ newId now).1.created_at = now ∧
    (create_post st ⟨title, bod⟩ newId now).1.updated_at = now := by
  refine ⟨?_, rfl, rfl, rfl, rfl, rfl, rfl, rfl⟩
  unfold get_post create_post
  rw [List.find?_append,
    List.find?_eq_none.mpr (by intro x hx; simpa using hfresh x hx)]
  simp

/-- Witness for C8: create {title "T", body "B"} in the empty store, then
fetch the returned id 1. -/
theorem create_then_get_roundtrip_witness :
    get_post (create_post [] ⟨"T", "B"⟩ 1 0).2 1 =
      .ok (create_post [] ⟨"T", "B"⟩ 1 0).1 ∧
    (create_post [] ⟨"T", "B"⟩ 1 0).1.title = "T" ∧
    (create_post [] ⟨"T", "B"⟩ 1 0).1.body = "B" ∧
    (create_post [] ⟨"T", "B"⟩ 1 0).1.is_pinned = false ∧
    (create_post [] ⟨"T", "B"⟩ 1 0).1.author_id = none ∧
    (create_post [] ⟨"T", "B"⟩ 1 0).1.id = 1 ∧
    (create_post [] ⟨"T", "B"⟩ 1 0).1.created_at = 0 ∧
    (create_post [] ⟨"T", "B"⟩ 1 0).1.updated_at = 0 :=
  create_then_get_roundtrip [] "T" "B" 1 0 (by simp)

end Board
